import Mathlib

/-!
Verification of the read-through cache and write queue of the
homebridge-sleepme device bridge.

The cache model below is a shallow embedding of the `ReadThroughCache`
class (src/readThroughCache.ts, the variant with `expirationMS = 1000`,
backoff floor 5000 ms and ceiling 5 minutes).  Promises are modelled
explicitly: the `request` field holds an optional promise handle which is
either still pending or settled with the value the awaiting callers
receive.  Time is an integer count of milliseconds.  The observability
fields `lastErrorCode` / `lastErrorMessage` are omitted: they are written
but never read by any verified path.
-/

namespace Sleepme

/-- A promise handle for an in-flight (or settled) fetch.  `resolved r`
carries the value awaiting callers receive; the fetch promise never
rejects because the `catch` handler in `get` returns a value on every
error path. -/
inductive Promise (α : Type)
  | pending
  | resolved (result : Option α)
  deriving DecidableEq

/-- The observable outcome of one `get()` call: a synchronously resolved
cached value, the existing in-flight request handle, or the start of a
new fetch. -/
inductive GetResult (α : Type)
  | cachedValue (v : α)
  | inFlight (p : Promise α)
  | newFetch
  deriving DecidableEq

/-- The mutable fields of `ReadThroughCache` (src/readThroughCache.ts). -/
structure CacheState (α : Type) where
  value : Option α
  responseTimestamp : Option Int
  responseExpireAt : Option Int
  request : Option (Promise α)
  errorCount : Nat
  deriving DecidableEq

namespace ReadThroughCache

/-- The miss path of `get()`: return the in-flight request if one exists,
otherwise start a new fetch (lines `if (this.request) ... this.request =
this.client.getDeviceStatus(...)`). -/
def getMiss (s : CacheState α) : GetResult α × CacheState α :=
  match s.request with
  | some p => (GetResult.inFlight p, s)
  | none => (GetResult.newFetch, { s with request := some Promise.pending })

/-- `get()` at time `t`: serve the cached value while
`this.value && this.responseExpireAt && now < responseExpireAt`,
otherwise fall through to the miss path. -/
def get (t : Int) (s : CacheState α) : GetResult α × CacheState α :=
  match s.value, s.responseExpireAt with
  | some v, some e => if t < e then (GetResult.cachedValue v, s) else getMiss s
  | some _, none => getMiss s
  | none, _ => getMiss s

/-- The exponential backoff applied when a fetch fails while a cached
value exists: `Math.min(Math.max(Math.pow(2, errorCount) * expirationMS,
5000), 60 * 1000 * 5)`. -/
def backoffDuration (expirationMS : Int) (errorCount : Nat) : Int :=
  min (max (2 ^ errorCount * expirationMS) 5000) (60 * 1000 * 5)

/-- The `.then` continuation of the fetch: store the response, stamp the
entry, set the expiry to `now + expirationMS`, clear the in-flight
handle, reset the error count.  The first component is the value the
promise resolves to for every awaiting caller. -/
def settleOk (expirationMS t : Int) (resp : α) (_s : CacheState α) :
    Option α × CacheState α :=
  (some resp,
    { value := some resp
      responseTimestamp := some t
      responseExpireAt := some (t + expirationMS)
      request := none
      errorCount := 0 })

/-- The `.catch` continuation of the fetch: bump the error count; when a
previous value exists, extend its expiry with `backoffDuration` and
return it — note the early `return this.value` skips the
`this.request = undefined` line, so the handle keeps pointing at the now
settled promise; with no previous value, clear the handle and resolve to
`null`. -/
def settleErr (expirationMS t : Int) (s : CacheState α) :
    Option α × CacheState α :=
  let ec := s.errorCount + 1
  match s.value with
  | some v =>
    (some v,
      { s with
          errorCount := ec
          responseExpireAt := some (t + backoffDuration expirationMS ec)
          request := some (Promise.resolved (some v)) })
  | none => (none, { s with errorCount := ec, request := none })

/-- A fetch settling with outcome `o` (`some resp` on success, `none` on
a rejected remote call). -/
def settle (expirationMS t : Int) (o : Option α) (s : CacheState α) :
    Option α × CacheState α :=
  match o with
  | some resp => settleOk expirationMS t resp s
  | none => settleErr expirationMS t s

/-- The `refresh()` definition in effect at runtime (the class declares
`refresh` twice; the later declaration overrides the earlier one): clear
any in-flight request, invalidate the expiry, then call `get()`. -/
def refresh (t : Int) (s : CacheState α) : GetResult α × CacheState α :=
  get t { s with request := none, responseExpireAt := none }

/-- The earlier of the two duplicate `refresh()` declarations, shadowed
at runtime by the later one: it would have returned any in-flight
request and only invalidated the expiry otherwise. -/
def refreshShadowed (t : Int) (s : CacheState α) : GetResult α × CacheState α :=
  match s.request with
  | some p => (GetResult.inFlight p, s)
  | none => get t { s with responseExpireAt := none }

/-- The cached-branch guard of `get()`:
`this.value && this.responseExpireAt && now < responseExpireAt`.  A call
at time `t` is served from the cache exactly when this holds; "no valid
cache entry" covers both a never-filled cache and a present but expired
value. -/
def validAt (t : Int) (s : CacheState α) : Bool :=
  match s.value, s.responseExpireAt with
  | some _, some e => decide (t < e)
  | _, _ => false

/-- How many of the `get()` calls at the given times start a new fetch,
with no settle event in between (the concurrent-caller window). -/
def countNewFetch : List Int → CacheState α → Nat
  | [], _ => 0
  | t :: rest, s =>
    match get t s with
    | (GetResult.newFetch, s2) => 1 + countNewFetch rest s2
    | (_, s2) => countNewFetch rest s2

end ReadThroughCache

namespace ReadThroughCache

/-- C1 counterexample: with a fetch in flight (`request = some pending`),
`refresh()` does not return that in-flight fetch — it starts a new one,
because the `refresh` declaration in effect clears the handle first. -/
theorem refresh_coalescing_counterexample :
    (refresh 0 (⟨none, none, none, some Promise.pending, 0⟩ : CacheState Int)).fst ≠
      GetResult.inFlight Promise.pending ∧
    (refresh 0 (⟨none, none, none, some Promise.pending, 0⟩ : CacheState Int)).fst =
      GetResult.newFetch := by
  constructor
  · decide
  · decide

/-- C1 (amended): `refresh()` always invalidates the cache expiry and
starts a new fetch; any in-flight request handle is cleared (replaced by
the fresh pending fetch), never coalesced onto. -/
theorem refresh_forces_new_fetch (s : CacheState α) (t : Int) :
    refresh t s =
      (GetResult.newFetch,
        ⟨s.value, s.responseTimestamp, none, some Promise.pending, s.errorCount⟩) := by
  obtain ⟨v, ts, e, r, ec⟩ := s
  cases v <;> rfl

/-- C2: after a fetch failure with a cached value `v`, the request handle
keeps pointing at the settled promise (resolved to `v`); every later
`get()` leaves the state unchanged and yields that same stale `v`
(either from the cached branch or from the retained handle, so never a
new fetch), until `refresh()` — which clears the handle and starts a
fresh fetch. -/
theorem failed_fetch_pins_stale_request (v : α) (eMS t : Int) (s : CacheState α)
    (h1 : s.value = some v) (h2 : s.request = some Promise.pending) :
    (settleErr eMS t s).fst = some v ∧
    (settleErr eMS t s).snd.request = some (Promise.resolved (some v)) ∧
    (∀ t2, (get t2 (settleErr eMS t s).snd).snd = (settleErr eMS t s).snd ∧
      ((get t2 (settleErr eMS t s).snd).fst = GetResult.cachedValue v ∨
       (get t2 (settleErr eMS t s).snd).fst =
         GetResult.inFlight (Promise.resolved (some v)))) ∧
    (∀ t3, (refresh t3 (settleErr eMS t s).snd).fst = GetResult.newFetch) := by
  obtain ⟨val, rts, e, r, ec⟩ := s
  subst h1 h2
  refine ⟨rfl, rfl, ?_, ?_⟩
  · intro t2
    simp only [settleErr, get, getMiss]
    split
    · exact ⟨rfl, Or.inl rfl⟩
    · exact ⟨rfl, Or.inr rfl⟩
  · intro t3
    rfl

/-- C2 witness at a concrete state: cached value `7`, pending fetch,
failure at `t = 2000`; a `get()` at `t = 999999` (far beyond the
extended expiry) still yields the stale result, and `refresh` starts a
new fetch. -/
theorem failed_fetch_pins_stale_request_witness :
    (settleErr 1000 2000 (⟨some 7, some 0, some 1000, some Promise.pending, 0⟩ :
        CacheState Int)).fst = some 7 ∧
    (settleErr 1000 2000 (⟨some 7, some 0, some 1000, some Promise.pending, 0⟩ :
        CacheState Int)).snd.request = some (Promise.resolved (some 7)) ∧
    ((get 999999 (settleErr 1000 2000 (⟨some 7, some 0, some 1000,
        some Promise.pending, 0⟩ : CacheState Int)).snd).fst =
          GetResult.cachedValue 7 ∨
     (get 999999 (settleErr 1000 2000 (⟨some 7, some 0, some 1000,
        some Promise.pending, 0⟩ : CacheState Int)).snd).fst =
          GetResult.inFlight (Promise.resolved (some 7))) ∧
    (refresh 1000000 (settleErr 1000 2000 (⟨some 7, some 0, some 1000,
        some Promise.pending, 0⟩ : CacheState Int)).snd).fst =
      GetResult.newFetch := by
  have h := failed_fetch_pins_stale_request 7 1000 2000
    (⟨some 7, some 0, some 1000, some Promise.pending, 0⟩ : CacheState Int) rfl rfl
  exact ⟨h.1, h.2.1, (h.2.2.1 999999).2, h.2.2.2 1000000⟩

/-- C5: a failed fetch with a cached value increments the error count,
keeps and returns the cached value unchanged (a failed fetch never
replaces `value`, cached or not), and sets the expiry to
`now + clamp(baseTTL * 2^errorCount, 5000 ms, 5 min)` with the
incremented count. -/
theorem failed_fetch_backoff (eMS t : Int) (s : CacheState α) (v : α)
    (h : s.value = some v) :
    (settleErr eMS t s).fst = some v ∧
    (settleErr eMS t s).snd.value = some v ∧
    (settleErr eMS t s).snd.errorCount = s.errorCount + 1 ∧
    (settleErr eMS t s).snd.responseExpireAt =
      some (t + min (max (2 ^ (s.errorCount + 1) * eMS) 5000) (60 * 1000 * 5)) ∧
    (∀ s2 : CacheState α, (settleErr eMS t s2).snd.value = s2.value) := by
  obtain ⟨val, rts, e, r, ec⟩ := s
  subst h
  refine ⟨rfl, rfl, rfl, rfl, ?_⟩
  intro s2
  obtain ⟨val2, rts2, e2, r2, ec2⟩ := s2
  cases val2 <;> rfl

/-- C5 witness: baseTTL 1000 ms, failure at `t = 5000` with one prior
error: the expiry becomes `5000 + clamp(1000 * 2^2, 5000, 300000) =
10000`. -/
theorem failed_fetch_backoff_witness :
    (settleErr 1000 5000 (⟨some 7, some 0, some 1000, some Promise.pending, 1⟩ :
        CacheState Int)).fst = some 7 ∧
    (settleErr 1000 5000 (⟨some 7, some 0, some 1000, some Promise.pending, 1⟩ :
        CacheState Int)).snd.value = some 7 ∧
    (settleErr 1000 5000 (⟨some 7, some 0, some 1000, some Promise.pending, 1⟩ :
        CacheState Int)).snd.errorCount = 2 ∧
    (settleErr 1000 5000 (⟨some 7, some 0, some 1000, some Promise.pending, 1⟩ :
        CacheState Int)).snd.responseExpireAt =
      some (5000 + min (max (2 ^ 2 * 1000) 5000) (60 * 1000 * 5)) := by
  have h := failed_fetch_backoff 1000 5000
    (⟨some 7, some 0, some 1000, some Promise.pending, 1⟩ : CacheState Int) 7 rfl
  exact ⟨h.1, h.2.1, h.2.2.1, h.2.2.2.1⟩

/-- C7: a successful fetch at time `T` stores the value, resets the
error count, clears the in-flight handle, and sets the expiry to
`T + baseTTL`; every `get()` strictly before the expiry returns the
stored value with the state untouched (no fetch), and a `get()` at or
after the expiry starts a new fetch. -/
theorem successful_fetch_ttl (eMS T t1 t2 : Int) (s : CacheState α) (resp : α)
    (h1 : t1 < T + eMS) (h2 : T + eMS ≤ t2) :
    (settleOk eMS T resp s).fst = some resp ∧
    (settleOk eMS T resp s).snd.value = some resp ∧
    (settleOk eMS T resp s).snd.errorCount = 0 ∧
    (settleOk eMS T resp s).snd.request = none ∧
    (settleOk eMS T resp s).snd.responseExpireAt = some (T + eMS) ∧
    get t1 (settleOk eMS T resp s).snd =
      (GetResult.cachedValue resp, (settleOk eMS T resp s).snd) ∧
    (get t2 (settleOk eMS T resp s).snd).fst = GetResult.newFetch := by
  refine ⟨rfl, rfl, rfl, rfl, rfl, ?_, ?_⟩
  · simp only [settleOk, get]
    split
    · rfl
    · omega
  · simp only [settleOk, get]
    split
    · omega
    · rfl

/-- C7 witness, matching the spec's test: success at `T = 0` with
baseTTL 1000 ms; `get` at 500 serves the cache, `get` at 1500 starts a
new fetch. -/
theorem successful_fetch_ttl_witness :
    (settleOk 1000 0 (42 : Int) ⟨none, none, none, some Promise.pending, 3⟩).snd.responseExpireAt =
      some (0 + 1000) ∧
    get 500 (settleOk 1000 0 (42 : Int) ⟨none, none, none, some Promise.pending, 3⟩).snd =
      (GetResult.cachedValue 42,
        (settleOk 1000 0 (42 : Int) ⟨none, none, none, some Promise.pending, 3⟩).snd) ∧
    (get 1500 (settleOk 1000 0 (42 : Int)
        ⟨none, none, none, some Promise.pending, 3⟩).snd).fst = GetResult.newFetch := by
  have h := successful_fetch_ttl 1000 0 500 1500
    (⟨none, none, none, some Promise.pending, 3⟩ : CacheState Int) 42
    (by decide) (by decide)
  exact ⟨h.2.2.2.2.1, h.2.2.2.2.2.1, h.2.2.2.2.2.2⟩

/-- C8: the settled result handed to callers is absent (`none`) exactly
when the fetch failed and no previously cached value exists, and in that
case the in-flight handle is cleared.  The settle function is total and
its result type has no rejection case: no error propagates past the
cache boundary. -/
theorem get_never_raises_absent_iff (eMS t : Int) (o : Option α) (s : CacheState α) :
    ((settle eMS t o s).fst = none ↔ o = none ∧ s.value = none) ∧
    (o = none → s.value = none → (settle eMS t o s).snd.request = none) := by
  obtain ⟨val, rts, e, r, ec⟩ := s
  cases o <;> cases val <;> simp [settle, settleOk, settleErr]

/-- C8 witness: failed fetch with no cached value yields `none` and a
cleared handle. -/
theorem get_never_raises_absent_iff_witness :
    (settle 1000 0 (none : Option Int)
        ⟨none, none, none, some Promise.pending, 0⟩).fst = none ∧
    (settle 1000 0 (none : Option Int)
        ⟨none, none, none, some Promise.pending, 0⟩).snd.request = none := by
  have h := get_never_raises_absent_iff 1000 0 (none : Option Int)
    (⟨none, none, none, some Promise.pending, 0⟩ : CacheState Int)
  exact ⟨h.1.mpr ⟨rfl, rfl⟩, h.2 rfl rfl⟩

/-- The request-field update leaves the cached-branch guard untouched. -/
theorem validAt_update_request (t : Int) (s : CacheState α)
    (r2 : Option (Promise α)) :
    validAt t { s with request := r2 } = validAt t s := rfl

/-- Helper for C9: while a request handle exists and the entry is not
valid (no value, or a value whose expiry has passed), `get()` returns
that same handle and leaves the state unchanged, so it never starts a
second fetch. -/
theorem get_inflight_not_valid (s : CacheState α) (p : Promise α) (t : Int)
    (h1 : validAt t s = false) (h2 : s.request = some p) :
    get t s = (GetResult.inFlight p, s) := by
  obtain ⟨val, rts, e, r, ec⟩ := s
  subst h2
  cases val with
  | none => rfl
  | some v =>
    cases e with
    | none => rfl
    | some e2 =>
      have hlt : ¬t < e2 := by simpa [validAt] using h1
      simp [get, getMiss, hlt]

/-- With no valid entry and no request in flight, `get()` starts a new
fetch, leaving the rest of the state untouched. -/
theorem get_newFetch_not_valid (s : CacheState α) (t : Int)
    (h1 : validAt t s = false) (h2 : s.request = none) :
    get t s = (GetResult.newFetch, { s with request := some Promise.pending }) := by
  obtain ⟨val, rts, e, r, ec⟩ := s
  subst h2
  cases val with
  | none => rfl
  | some v =>
    cases e with
    | none => rfl
    | some e2 =>
      have hlt : ¬t < e2 := by simpa [validAt] using h1
      simp [get, getMiss, hlt]

theorem countNewFetch_zero_of_inflight (ts : List Int) (s : CacheState α)
    (p : Promise α) (h1 : ∀ t ∈ ts, validAt t s = false)
    (h2 : s.request = some p) :
    countNewFetch ts s = 0 := by
  induction ts with
  | nil => rfl
  | cons t rest ih =>
    have hg := get_inflight_not_valid s p t (h1 t (List.mem_cons_self t rest)) h2
    simp only [countNewFetch, hg]
    exact ih fun t2 ht2 => h1 t2 (List.mem_cons_of_mem t ht2)

/-- C9: any nonempty burst of `get()` calls, each arriving with no valid
cache entry (none cached, or the cached value expired) and starting with
no fetch in flight, triggers exactly one fetch — the first call creates
the pending request, and every later call returns that same in-flight
handle instead of fetching again; in general a `get()` that misses the
cache while any request handle exists returns that handle with the state
unchanged, so at most one fetch is ever outstanding. -/
theorem concurrent_gets_single_fetch (s : CacheState α) (ts : List Int)
    (h1 : ∀ t ∈ ts, validAt t s = false) (h2 : s.request = none) (h3 : ts ≠ []) :
    countNewFetch ts s = 1 ∧
    (∀ (s2 : CacheState α) (p : Promise α) (t : Int),
      validAt t s2 = false → s2.request = some p →
        get t s2 = (GetResult.inFlight p, s2)) := by
  refine ⟨?_, fun s2 p t ha hb => get_inflight_not_valid s2 p t ha hb⟩
  match ts with
  | [] => exact absurd rfl h3
  | t :: rest =>
    have hg := get_newFetch_not_valid s t (h1 t (List.mem_cons_self t rest)) h2
    simp only [countNewFetch, hg]
    rw [countNewFetch_zero_of_inflight rest { s with request := some Promise.pending }
      Promise.pending
      (fun t2 ht2 => by
        rw [validAt_update_request]
        exact h1 t2 (List.mem_cons_of_mem t ht2))
      rfl]

/-- C9 witness, exercising the expired-entry case: a value cached with
expiry 1000 and three `get()` calls at 2000/2001/2002 start exactly one
fetch; a further call while that fetch is pending returns the in-flight
handle. -/
theorem concurrent_gets_single_fetch_witness :
    countNewFetch [2000, 2001, 2002]
      (⟨some 7, some 0, some 1000, none, 0⟩ : CacheState Int) = 1 ∧
    get 3000 (⟨some 7, some 0, some 1000, some Promise.pending, 0⟩ : CacheState Int) =
      (GetResult.inFlight Promise.pending,
        (⟨some 7, some 0, some 1000, some Promise.pending, 0⟩ : CacheState Int)) := by
  have h := concurrent_gets_single_fetch
    (⟨some 7, some 0, some 1000, none, 0⟩ : CacheState Int) [2000, 2001, 2002]
    (by decide) rfl (by decide)
  exact ⟨h.1, h.2 ⟨some 7, some 0, some 1000, some Promise.pending, 0⟩
    Promise.pending 3000 (by decide) rfl⟩

end ReadThroughCache

/-!
The write queue (`ApiQueue`, src/queue/apiQueue.ts).  The JS `Map` keyed
by the template string `deviceId:type` is modelled as an association
list keyed by the pair `(deviceId, type)` — faithful because the two
type tags are distinct non-suffixes of each other, so the template key
determines the pair uniquely.  Item values (`any` in the source: a
Celsius temperature or the 0/1 HomeKit state encoding) are rationals.
The remote call itself is abstracted by the per-attempt outcome function
handed to `sendRequestSim`; wall-clock durations enter the dispatch-loop
model (`dispatchStep`) explicitly.
-/

inductive QueueItemType
  | temperature
  | state
  deriving DecidableEq

abbrev QueueItemKey := String × QueueItemType

structure QueueItem where
  id : String
  type : QueueItemType
  value : ℚ
  timestamp : Int
  deriving DecidableEq

abbrev Queue := List (QueueItemKey × QueueItem)

namespace ApiQueue

/-- JS `Map.set`: replace the entry for an existing key in place,
otherwise append. -/
def mapSet (k : QueueItemKey) (v : QueueItem) : Queue → Queue
  | [] => [(k, v)]
  | (k2, v2) :: rest =>
    if k = k2 then (k, v) :: rest else (k2, v2) :: mapSet k v rest

/-- JS `Map.delete`. -/
def mapDelete (k : QueueItemKey) : Queue → Queue
  | [] => []
  | (k2, v2) :: rest => if k = k2 then rest else (k2, v2) :: mapDelete k rest

/-- JS `Map.get`. -/
def mapGet (k : QueueItemKey) : Queue → Option QueueItem
  | [] => none
  | (k2, v2) :: rest => if k = k2 then some v2 else mapGet k rest

/-- The map invariant: at most one entry per `(deviceId, type)` key. -/
def nodupKeys (q : Queue) : Prop := (q.map Prod.fst).Nodup

instance (q : Queue) : Decidable (nodupKeys q) := by
  unfold nodupKeys
  infer_instance

/-- The queue effect of `enqueue(deviceId, type, value)` at `Date.now()
= timestamp`: `this.queue.set(key, queueItem)`.  (The desired-state
update, verification scheduling and loop kick that follow are modelled
separately.) -/
def enqueue (deviceId : String) (ty : QueueItemType) (value : ℚ)
    (timestamp : Int) (q : Queue) : Queue :=
  mapSet (deviceId, ty) ⟨deviceId, ty, value, timestamp⟩ q

/-- A sequence of `enqueue` calls for one key, in order, each with its
value and timestamp. -/
def enqueueSeq (deviceId : String) (ty : QueueItemType) :
    List (ℚ × Int) → Queue → Queue
  | [], q => q
  | (v, t) :: rest, q => enqueueSeq deviceId ty rest (enqueue deviceId ty v t q)

/-- The last element of `v :: vs`. -/
def lastD (v : ℚ × Int) : List (ℚ × Int) → ℚ × Int
  | [] => v
  | w :: rest => lastD w rest

/-- `getOldestItem()`: scan the map values keeping the item with the
strictly smallest timestamp (first wins on ties, as in the source's
`<` comparison over insertion order). -/
def getOldestItem (q : Queue) : Option QueueItem :=
  q.foldl
    (fun acc kv =>
      match acc with
      | none => some kv.snd
      | some best =>
        if kv.snd.timestamp < best.timestamp then some kv.snd else some best)
    none

/-- The backoff before retry number `retries`:
`Math.min(1000 * Math.pow(2, retries), 10000)`. -/
def backoffMs (retries : Nat) : Int := min (1000 * 2 ^ retries) 10000

/-- Result of one `sendRequest` call: whether it ultimately succeeded,
how many gateway attempts it made, and the backoff delays it slept
between attempts. -/
structure SendResult where
  success : Bool
  attempts : Nat
  delays : List Int
  deriving DecidableEq

/-- The body of `sendRequest`'s `while (!success && retries <
maxRetries)` loop, with `fuel = maxRetries - retries` so the recursion
is structural: attempt `outcome retries`; on failure increment the retry
counter and, if another attempt remains (`retries + 1 < maxRetries`,
i.e. `0 < fuel`), sleep `backoffMs (retries + 1)`. -/
def sendRequestGo (outcome : Nat → Bool) (retries : Nat) : Nat → SendResult
  | 0 => ⟨false, 0, []⟩
  | fuel + 1 =>
    if outcome retries then ⟨true, 1, []⟩
    else
      let rest := sendRequestGo outcome (retries + 1) fuel
      ⟨rest.success, rest.attempts + 1,
        (if 0 < fuel then [backoffMs (retries + 1)] else []) ++ rest.delays⟩

/-- `sendRequest(item)` with the given per-attempt outcomes; throws
(surfaced as `success = false`) after `maxRetries` failed attempts. -/
def sendRequestSim (maxRetries : Nat) (outcome : Nat → Bool) : SendResult :=
  sendRequestGo outcome 0 maxRetries

/-- One iteration of `processQueue` past the interval gate: take the
oldest item, delete its key from the map, then `sendRequest` it.  A
failure is caught and logged — the item is not re-inserted. -/
def processStep (maxRetries : Nat) (outcome : Nat → Bool) (q : Queue) :
    Queue × Option (QueueItem × SendResult) :=
  match getOldestItem q with
  | none => (q, none)
  | some item =>
    (mapDelete (item.id, item.type) q, some (item, sendRequestSim maxRetries outcome))

theorem mapSet_cons_self (k : QueueItemKey) (v v2 : QueueItem) (rest : Queue) :
    mapSet k v ((k, v2) :: rest) = (k, v) :: rest := by
  simp [mapSet]

theorem mapSet_cons_ne (k k2 : QueueItemKey) (v v2 : QueueItem) (rest : Queue)
    (hk : k ≠ k2) : mapSet k v ((k2, v2) :: rest) = (k2, v2) :: mapSet k v rest := by
  simp [mapSet, hk]

theorem mem_keys_of_mem_keys_mapSet (k a : QueueItemKey) (v : QueueItem)
    (q : Queue) : a ∈ ((mapSet k v q).map Prod.fst) → a = k ∨ a ∈ (q.map Prod.fst) := by
  induction q with
  | nil =>
    intro h
    simp only [mapSet, List.map_cons, List.map_nil, List.mem_singleton] at h
    exact Or.inl h
  | cons kv rest ih =>
    obtain ⟨k2, v2⟩ := kv
    intro h
    by_cases hk : k = k2
    · subst hk
      rw [mapSet_cons_self] at h
      simp only [List.map_cons, List.mem_cons] at h
      rcases h with h1 | h1
      · exact Or.inl h1
      · exact Or.inr (List.mem_cons_of_mem _ h1)
    · rw [mapSet_cons_ne k k2 v v2 rest hk] at h
      simp only [List.map_cons, List.mem_cons] at h
      rcases h with h1 | h1
      · subst h1
        exact Or.inr (by simp)
      · rcases ih h1 with h2 | h2
        · exact Or.inl h2
        · exact Or.inr (List.mem_cons_of_mem _ h2)

theorem mapDelete_cons_self (k : QueueItemKey) (v2 : QueueItem) (rest : Queue) :
    mapDelete k ((k, v2) :: rest) = rest := by
  simp [mapDelete]

theorem mapDelete_cons_ne (k k2 : QueueItemKey) (v2 : QueueItem) (rest : Queue)
    (hk : k ≠ k2) : mapDelete k ((k2, v2) :: rest) = (k2, v2) :: mapDelete k rest := by
  simp [mapDelete, hk]

theorem mapGet_cons_ne (k k2 : QueueItemKey) (v2 : QueueItem) (rest : Queue)
    (hk : k ≠ k2) : mapGet k ((k2, v2) :: rest) = mapGet k rest := by
  simp [mapGet, hk]

theorem nodupKeys_mapSet (k : QueueItemKey) (v : QueueItem) (q : Queue) :
    nodupKeys q → nodupKeys (mapSet k v q) := by
  induction q with
  | nil =>
    intro _
    simp [nodupKeys, mapSet]
  | cons kv rest ih =>
    obtain ⟨k2, v2⟩ := kv
    intro h
    have h2 : k2 ∉ rest.map Prod.fst ∧ (rest.map Prod.fst).Nodup := by
      simpa [nodupKeys] using h
    by_cases hk : k = k2
    · subst hk
      rw [mapSet_cons_self]
      simpa [nodupKeys] using h
    · rw [mapSet_cons_ne k k2 v v2 rest hk]
      have ihr : nodupKeys (mapSet k v rest) := ih (by simpa [nodupKeys] using h2.2)
      have goal2 : (k2 :: (mapSet k v rest).map Prod.fst).Nodup := by
        refine List.nodup_cons.mpr ⟨?_, by simpa [nodupKeys] using ihr⟩
        intro hmem
        rcases mem_keys_of_mem_keys_mapSet k k2 v rest hmem with he | he
        · exact hk he.symm
        · exact h2.1 he
      simpa [nodupKeys] using goal2

theorem mapGet_eq_none_of_not_mem (k : QueueItemKey) (q : Queue) :
    k ∉ q.map Prod.fst → mapGet k q = none := by
  induction q with
  | nil =>
    intro _
    rfl
  | cons kv rest ih =>
    obtain ⟨k2, v2⟩ := kv
    intro h
    have hk : k ≠ k2 := by
      intro he
      exact h (by simp [he])
    have hrest : k ∉ rest.map Prod.fst := by
      intro hm
      exact h (by simp [hm])
    rw [mapGet_cons_ne k k2 v2 rest hk]
    exact ih hrest

theorem mapGet_mapDelete_self (k : QueueItemKey) (q : Queue) :
    nodupKeys q → mapGet k (mapDelete k q) = none := by
  induction q with
  | nil =>
    intro _
    rfl
  | cons kv rest ih =>
    obtain ⟨k2, v2⟩ := kv
    intro h
    have h2 : k2 ∉ rest.map Prod.fst ∧ (rest.map Prod.fst).Nodup := by
      simpa [nodupKeys] using h
    by_cases hk : k = k2
    · subst hk
      rw [mapDelete_cons_self]
      exact mapGet_eq_none_of_not_mem k rest h2.1
    · rw [mapDelete_cons_ne k k2 v2 rest hk, mapGet_cons_ne k k2 v2 _ hk]
      exact ih (by simpa [nodupKeys] using h2.2)

theorem sendRequestGo_attempts_le (outcome : Nat → Bool) :
    ∀ (fuel retries : Nat), (sendRequestGo outcome retries fuel).attempts ≤ fuel
  | 0, _ => Nat.le_refl 0
  | fuel + 1, retries => by
    simp only [sendRequestGo]
    split
    · exact Nat.succ_le_succ (Nat.zero_le fuel)
    · exact Nat.succ_le_succ (sendRequestGo_attempts_le outcome fuel (retries + 1))

/-- With the default `maxRetries = 3`, an exhausted `sendRequest` made
exactly 3 attempts and slept 2000 ms then 4000 ms between them. -/
theorem sendRequestSim_three_failure (outcome : Nat → Bool)
    (h : (sendRequestSim 3 outcome).success = false) :
    sendRequestSim 3 outcome = ⟨false, 3, [2000, 4000]⟩ := by
  cases h0 : outcome 0 <;> cases h1 : outcome 1 <;> cases h2 : outcome 2 <;>
    simp [sendRequestSim, sendRequestGo, backoffMs, h0, h1, h2] at h ⊢

/-- C3 counterexample: with every attempt failing, the first backoff
delay is 2000 ms, not the claimed 1000 ms. -/
theorem sendRequest_first_delay_counterexample :
    (sendRequestSim 3 (fun _ => false)).delays.head? = some 2000 ∧
    (sendRequestSim 3 (fun _ => false)).delays.head? ≠ some 1000 := by
  constructor
  · decide
  · decide

/-- C3 (amended): a dispatched write is attempted at most `maxRetries`
times in total (default 3, i.e. up to 2 retries after the first
failure); the backoff slept after the r-th failed attempt is
`min(1000 * 2^r, 10000)` ms — 2 s then 4 s with the default — and when
all attempts fail the item has already been deleted from the queue and
is not re-inserted. -/
theorem sendRequest_retry_backoff (outcome : Nat → Bool) (q : Queue)
    (item : QueueItem) (hq : nodupKeys q)
    (hold : getOldestItem q = some item) :
    (sendRequestSim 3 outcome).attempts ≤ 3 ∧
    ((sendRequestSim 3 outcome).success = false →
      (sendRequestSim 3 outcome).attempts = 3 ∧
      (sendRequestSim 3 outcome).delays = [backoffMs 1, backoffMs 2] ∧
      backoffMs 1 = 2000 ∧ backoffMs 2 = 4000) ∧
    mapGet (item.id, item.type) (processStep 3 outcome q).fst = none := by
  refine ⟨sendRequestGo_attempts_le outcome 3 0, ?_, ?_⟩
  · intro h
    have h3 := sendRequestSim_three_failure outcome h
    rw [h3]
    refine ⟨rfl, ?_, by decide, by decide⟩
    decide
  · simp only [processStep, hold]
    exact mapGet_mapDelete_self (item.id, item.type) q hq

/-- C3 witness: a concrete always-failing dispatch from a one-item
queue: 3 attempts, delays 2 s and 4 s, and the item's key is gone from
the queue afterwards. -/
theorem sendRequest_retry_backoff_witness :
    (sendRequestSim 3 (fun _ => false)).attempts ≤ 3 ∧
    ((sendRequestSim 3 (fun _ => false)).success = false →
      (sendRequestSim 3 (fun _ => false)).attempts = 3 ∧
      (sendRequestSim 3 (fun _ => false)).delays = [backoffMs 1, backoffMs 2] ∧
      backoffMs 1 = 2000 ∧ backoffMs 2 = 4000) ∧
    mapGet ("dev1", QueueItemType.temperature)
      (processStep 3 (fun _ => false)
        [(("dev1", QueueItemType.temperature),
          ⟨"dev1", QueueItemType.temperature, 20, 0⟩)]).fst = none := by
  exact sendRequest_retry_backoff (fun _ => false)
    [(("dev1", QueueItemType.temperature),
      ⟨"dev1", QueueItemType.temperature, 20, 0⟩)]
    ⟨"dev1", QueueItemType.temperature, 20, 0⟩ (by decide) rfl

theorem enqueueSeq_singleton (deviceId : String) (ty : QueueItemType) :
    ∀ (vs : List (ℚ × Int)) (v : ℚ) (t : Int),
      enqueueSeq deviceId ty vs [((deviceId, ty), ⟨deviceId, ty, v, t⟩)] =
        [((deviceId, ty),
          ⟨deviceId, ty, (lastD (v, t) vs).1, (lastD (v, t) vs).2⟩)]
  | [], v, t => rfl
  | (v2, t2) :: rest, v, t => by
    simp only [enqueueSeq, enqueue, lastD]
    rw [mapSet_cons_self]
    exact enqueueSeq_singleton deviceId ty rest v2 t2

/-- C10: `enqueue` preserves the at-most-one-item-per-key invariant; a
sequence of enqueues for one key starting from an empty queue collapses
to the single entry carrying the last value (last-write-wins), and
dispatching from that queue issues exactly one call, carrying that last
value, leaving the queue empty. -/
theorem enqueue_coalesces_per_key (deviceId : String) (ty : QueueItemType)
    (v : ℚ) (t : Int) (vs : List (ℚ × Int)) (q : Queue)
    (outcome : Nat → Bool) (hq : nodupKeys q) :
    nodupKeys (enqueue deviceId ty v t q) ∧
    enqueueSeq deviceId ty ((v, t) :: vs) [] =
      [((deviceId, ty),
        ⟨deviceId, ty, (lastD (v, t) vs).1, (lastD (v, t) vs).2⟩)] ∧
    processStep 3 outcome (enqueueSeq deviceId ty ((v, t) :: vs) []) =
      ([], some (⟨deviceId, ty, (lastD (v, t) vs).1, (lastD (v, t) vs).2⟩,
        sendRequestSim 3 outcome)) := by
  have hseq : enqueueSeq deviceId ty ((v, t) :: vs) [] =
      [((deviceId, ty),
        ⟨deviceId, ty, (lastD (v, t) vs).1, (lastD (v, t) vs).2⟩)] := by
    simp only [enqueueSeq, enqueue, mapSet]
    exact enqueueSeq_singleton deviceId ty vs v t
  refine ⟨nodupKeys_mapSet (deviceId, ty) ⟨deviceId, ty, v, t⟩ q hq, hseq, ?_⟩
  rw [hseq]
  simp [processStep, getOldestItem, mapDelete_cons_self]

/-- C10 witness, matching the spec's test: enqueue `temperature = 20`
then `temperature = 22` for one device; the queue holds one item with
value 22 and the single dispatched call carries 22. -/
theorem enqueue_coalesces_per_key_witness :
    enqueueSeq "dev1" QueueItemType.temperature [(20, 0), (22, 1)] [] =
      [(("dev1", QueueItemType.temperature),
        ⟨"dev1", QueueItemType.temperature, 22, 1⟩)] ∧
    processStep 3 (fun _ => true)
        (enqueueSeq "dev1" QueueItemType.temperature [(20, 0), (22, 1)] []) =
      ([], some (⟨"dev1", QueueItemType.temperature, 22, 1⟩,
        sendRequestSim 3 (fun _ => true))) := by
  have h := enqueue_coalesces_per_key "dev1" QueueItemType.temperature 20 0
    [(22, 1)] [] (fun _ => true) (by decide)
  exact ⟨h.2.1, h.2.2⟩

namespace DispatchLoop

/-- The two time-keeping fields of the dispatch loop: the current wall
clock when `processQueue` resumes, and `lastProcessTime`. -/
structure LoopState where
  now : Int
  lastProcess : Int

/-- One dispatched item, abstracting the environment: total wall-clock
time spent inside the gateway call attempts, the per-attempt outcomes,
and scheduler delay (`setImmediate`, map bookkeeping) before the next
loop iteration reads the clock.  `callTime` and `idle` are nonnegative
in every run. -/
structure DispatchSpec where
  callTime : Int
  outcome : Nat → Bool
  idle : Int

/-- `Math.max(0, this.intervalMs - (now - this.lastProcessTime))`. -/
def timeToWait (intervalMs : Int) (st : LoopState) : Int :=
  max 0 (intervalMs - (st.now - st.lastProcess))

/-- The instant the dispatch begins: after sleeping `timeToWait`. -/
def dispatchBegin (intervalMs : Int) (st : LoopState) : Int :=
  st.now + timeToWait intervalMs st

/-- One `processQueue` iteration past the queue bookkeeping: gate on the
interval, dispatch (`sendRequest` with its backoff sleeps), then update
`lastProcessTime = Date.now()` only when the dispatch succeeded — the
`catch` branch leaves it unchanged.  Returns the dispatch begin time and
the loop state at the next iteration. -/
def dispatchStep (intervalMs : Int) (maxRetries : Nat) (st : LoopState)
    (sp : DispatchSpec) : Int × LoopState :=
  let res := sendRequestSim maxRetries sp.outcome
  let b := dispatchBegin intervalMs st
  let e := b + sp.callTime + res.delays.sum
  (b, ⟨e + sp.idle, if res.success then e else st.lastProcess⟩)

/-- The begin times of a run of consecutive dispatches. -/
def dispatchTimes (intervalMs : Int) (maxRetries : Nat) :
    LoopState → List DispatchSpec → List Int
  | _, [] => []
  | st, sp :: rest =>
    (dispatchStep intervalMs maxRetries st sp).fst ::
      dispatchTimes intervalMs maxRetries (dispatchStep intervalMs maxRetries st sp).snd rest

theorem backoffMs_nonneg (r : Nat) : 0 ≤ backoffMs r :=
  le_min (by positivity) (by norm_num)

theorem sendRequestGo_delays_sum_nonneg (outcome : Nat → Bool) :
    ∀ (fuel retries : Nat), 0 ≤ (sendRequestGo outcome retries fuel).delays.sum
  | 0, _ => le_refl 0
  | fuel + 1, retries => by
    simp only [sendRequestGo]
    split
    · simp
    · rw [List.sum_append]
      have h1 : 0 ≤ ((if 0 < fuel then [backoffMs (retries + 1)] else []) : List Int).sum := by
        split
        · simpa using backoffMs_nonneg (retries + 1)
        · simp
      exact add_nonneg h1 (sendRequestGo_delays_sum_nonneg outcome fuel (retries + 1))

theorem now_le_dispatchBegin (intervalMs : Int) (st : LoopState) :
    st.now ≤ dispatchBegin intervalMs st :=
  le_add_of_nonneg_right (le_max_left 0 _)

theorem lastProcess_add_le_dispatchBegin (intervalMs : Int) (st : LoopState) :
    st.lastProcess + intervalMs ≤ dispatchBegin intervalMs st := by
  have h : st.lastProcess + intervalMs = st.now + (intervalMs - (st.now - st.lastProcess)) := by
    ring
  rw [h]
  exact add_le_add_left (le_max_right 0 _) st.now

/-- The inductive step for the spacing theorem: one dispatch preserves
`lastProcess ≤ now` and forces the next dispatch to begin at least
`intervalMs` later, provided `0 ≤ intervalMs ≤ 6000` — on success via
the interval gate against the updated `lastProcessTime`, on an
exhausted failure (where `lastProcessTime` is *not* updated) only
because the failed dispatch itself slept the 2000 + 4000 ms of backoff. -/
theorem dispatchStep_spacing (intervalMs : Int) (st : LoopState) (sp : DispatchSpec)
    (hI0 : 0 ≤ intervalMs) (hI6 : intervalMs ≤ 6000)
    (hc : 0 ≤ sp.callTime) (hi : 0 ≤ sp.idle) (_h0 : st.lastProcess ≤ st.now) :
    (dispatchStep intervalMs 3 st sp).snd.lastProcess ≤
      (dispatchStep intervalMs 3 st sp).snd.now ∧
    (dispatchStep intervalMs 3 st sp).fst + intervalMs ≤
      dispatchBegin intervalMs (dispatchStep intervalMs 3 st sp).snd := by
  have hsum : 0 ≤ (sendRequestSim 3 sp.outcome).delays.sum :=
    sendRequestGo_delays_sum_nonneg sp.outcome 3 0
  have hb : st.lastProcess + intervalMs ≤ dispatchBegin intervalMs st :=
    lastProcess_add_le_dispatchBegin intervalMs st
  have hfst : (dispatchStep intervalMs 3 st sp).fst = dispatchBegin intervalMs st := rfl
  have hnow : (dispatchStep intervalMs 3 st sp).snd.now =
      dispatchBegin intervalMs st + sp.callTime +
        (sendRequestSim 3 sp.outcome).delays.sum + sp.idle := rfl
  have h2l := lastProcess_add_le_dispatchBegin intervalMs
    (dispatchStep intervalMs 3 st sp).snd
  have h2n := now_le_dispatchBegin intervalMs (dispatchStep intervalMs 3 st sp).snd
  cases hres : (sendRequestSim 3 sp.outcome).success with
  | true =>
    have hlast : (dispatchStep intervalMs 3 st sp).snd.lastProcess =
        dispatchBegin intervalMs st + sp.callTime +
          (sendRequestSim 3 sp.outcome).delays.sum := by
      simp [dispatchStep, hres]
    constructor
    · omega
    · omega
  | false =>
    have hdel : (sendRequestSim 3 sp.outcome).delays = [2000, 4000] :=
      congrArg SendResult.delays (sendRequestSim_three_failure sp.outcome hres)
    have hsum2 : (sendRequestSim 3 sp.outcome).delays.sum = 6000 := by
      rw [hdel]
      norm_num
    have hlast : (dispatchStep intervalMs 3 st sp).snd.lastProcess = st.lastProcess := by
      simp [dispatchStep, hres]
    constructor
    · omega
    · omega

/-- C4 counterexample: `intervalMs` is configurable (`apiIntervalMs`),
and the claimed spacing fails for `intervalMs = 10000`: starting from
`lastProcessTime = 0` at clock 0, an exhausted-failure dispatch begins
at 10000 and — because `lastProcessTime` is only updated on success —
the next dispatch begins at 16000, just 6000 ms later. -/
theorem processQueue_interval_spacing_counterexample :
    dispatchTimes 10000 3 (⟨0, 0⟩ : LoopState)
      [⟨0, fun _ => false, 0⟩, ⟨0, fun _ => true, 0⟩] = [10000, 16000] ∧
    ¬List.Chain' (fun a b => a + 10000 ≤ b)
      (dispatchTimes 10000 3 (⟨0, 0⟩ : LoopState)
        [⟨0, fun _ => false, 0⟩, ⟨0, fun _ => true, 0⟩]) := by
  have heq : dispatchTimes 10000 3 (⟨0, 0⟩ : LoopState)
      [⟨0, fun _ => false, 0⟩, ⟨0, fun _ => true, 0⟩] = [10000, 16000] := by
    decide
  refine ⟨heq, ?_⟩
  intro hch
  rw [heq] at hch
  have h2 := (List.chain'_cons.mp hch).1
  omega

/-- C4 (amended): consecutive dispatch begin times are at least
`intervalMs` apart for every configuration with
`0 ≤ intervalMs ≤ 6000` — which includes the default 2000 ms — over any
mix of devices, outcomes, gateway call durations and scheduler delays.
The bound 6000 is the total retry backoff of an exhausted dispatch
(2000 + 4000 ms with `maxRetries = 3`): after such a failure
`lastProcessTime` is not updated, so only the failed dispatch's own
sleep separates it from the next one, and for configured
`intervalMs > 6000` the claimed spacing does not hold. -/
theorem processQueue_interval_spacing (intervalMs : Int) (sps : List DispatchSpec)
    (st : LoopState) (hI0 : 0 ≤ intervalMs) (hI6 : intervalMs ≤ 6000)
    (hw : ∀ sp ∈ sps, 0 ≤ sp.callTime ∧ 0 ≤ sp.idle)
    (h0 : st.lastProcess ≤ st.now) :
    List.Chain' (fun a b => a + intervalMs ≤ b)
      (dispatchTimes intervalMs 3 st sps) := by
  induction sps generalizing st with
  | nil => exact List.chain'_nil
  | cons sp rest ih =>
    have hsp := hw sp (List.mem_cons_self sp rest)
    have hrest : ∀ x ∈ rest, 0 ≤ x.callTime ∧ 0 ≤ x.idle :=
      fun x hx => hw x (List.mem_cons_of_mem sp hx)
    have hstep := dispatchStep_spacing intervalMs st sp hI0 hI6 hsp.1 hsp.2 h0
    refine List.chain'_cons'.mpr
      ⟨?_, ih (dispatchStep intervalMs 3 st sp).snd hrest hstep.1⟩
    intro y hy
    cases rest with
    | nil => simp [dispatchTimes] at hy
    | cons sp2 r2 =>
      have hhead : (dispatchTimes intervalMs 3
          (dispatchStep intervalMs 3 st sp).snd (sp2 :: r2)).head? =
          some (dispatchBegin intervalMs (dispatchStep intervalMs 3 st sp).snd) := rfl
      rw [hhead] at hy
      have hy2 : y = dispatchBegin intervalMs (dispatchStep intervalMs 3 st sp).snd := by
        have := hy
        simp only [Option.mem_def, Option.some.injEq] at this
        exact this.symm
      rw [hy2]
      exact hstep.2

/-- C4 witness at the default `intervalMs = 2000`: three dispatches
(success, exhausted failure, success) starting from
`lastProcessTime = 0` at clock 100000 are spaced at least 2000 ms
apart. -/
theorem processQueue_interval_spacing_witness :
    List.Chain' (fun a b => a + 2000 ≤ b)
      (dispatchTimes 2000 3 (⟨100000, 0⟩ : LoopState)
        [⟨0, fun _ => true, 0⟩, ⟨0, fun _ => false, 0⟩, ⟨7, fun _ => true, 5⟩]) := by
  exact processQueue_interval_spacing 2000
    [⟨0, fun _ => true, 0⟩, ⟨0, fun _ => false, 0⟩, ⟨7, fun _ => true, 5⟩]
    (⟨100000, 0⟩ : LoopState) (by decide) (by decide) (by decide) (by decide)

end DispatchLoop

/-! Verification of device state (`verifyDeviceState`).  Only the fields
the verified paths read are modelled: `control.set_temperature_c` and
`control.thermal_control_status` of the fetched `DeviceStatus`, and the
per-device `DeviceDesiredState`.  Temperatures are rationals. -/

inductive TCStatus
  | standby
  | active
  deriving DecidableEq

structure Control where
  set_temperature_c : ℚ
  thermal_control_status : TCStatus
  deriving DecidableEq

structure DeviceStatus where
  control : Control
  deriving DecidableEq

/-- `DeviceDesiredState` (the verification timer handle is modelled
separately from this record). -/
structure DeviceDesiredState where
  targetTemperatureC : Option ℚ
  targetState : Option TCStatus
  lastModified : Int
  deriving DecidableEq

/-- The 0/1 HomeKit encoding sent when a state mismatch is re-enqueued:
`desiredState.targetState === 'standby' ? 0 : 1`. -/
def stateValue : TCStatus → ℚ
  | TCStatus.standby => 0
  | TCStatus.active => 1

/-- The decoding applied by `updateDesiredState` on enqueue:
`value === 0 ? 'standby' : 'active'`. -/
def targetStateOfValue (v : ℚ) : TCStatus :=
  if v = 0 then TCStatus.standby else TCStatus.active

/-- The temperature re-enqueue of `verifyDeviceState`: fires when a
desired temperature is set and
`Math.abs(actual.control.set_temperature_c - desired) > 0.1`. -/
def temperatureMismatch (d : DeviceDesiredState) (actual : DeviceStatus) :
    List (QueueItemType × ℚ) :=
  match d.targetTemperatureC with
  | some tc =>
    if 1 / 10 < |actual.control.set_temperature_c - tc| then
      [(QueueItemType.temperature, tc)]
    else []
  | none => []

/-- The state re-enqueue of `verifyDeviceState`: fires when a desired
mode is set and the actual `thermal_control_status` differs from it. -/
def stateMismatch (d : DeviceDesiredState) (actual : DeviceStatus) :
    List (QueueItemType × ℚ) :=
  match d.targetState with
  | some ts =>
    if actual.control.thermal_control_status ≠ ts then
      [(QueueItemType.state, stateValue ts)]
    else []
  | none => []

inductive VerifyResult
  | skippedNoState
  | skippedNoCache
  | skippedFetchFailed
  | checked (enqueued : List (QueueItemType × ℚ))
  deriving DecidableEq

/-- `verifyDeviceState(deviceId)` as a function of the device's desired
state, whether a cache is registered for it, and what the forced
`cache.refresh()` returned: exit early without desired state; warn and
exit without a registered cache; warn and exit when the refresh yields
no status; otherwise re-enqueue each mismatched field with the desired
value. -/
def verifyDeviceState (desired : Option DeviceDesiredState)
    (cacheRegistered : Bool) (response : Option DeviceStatus) : VerifyResult :=
  match desired with
  | none => VerifyResult.skippedNoState
  | some d =>
    if cacheRegistered then
      match response with
      | none => VerifyResult.skippedFetchFailed
      | some actual =>
        VerifyResult.checked (temperatureMismatch d actual ++ stateMismatch d actual)
    else VerifyResult.skippedNoCache

/-- The writes a verification run enqueued. -/
def enqueuedOf : VerifyResult → List (QueueItemType × ℚ)
  | VerifyResult.checked l => l
  | _ => []

theorem temperatureMismatch_none (d : DeviceDesiredState) (actual : DeviceStatus)
    (h : d.targetTemperatureC = none) : temperatureMismatch d actual = [] := by
  unfold temperatureMismatch
  rw [h]

theorem temperatureMismatch_some_pos (d : DeviceDesiredState)
    (actual : DeviceStatus) (tc2 : ℚ) (h : d.targetTemperatureC = some tc2)
    (hc : 1 / 10 < |actual.control.set_temperature_c - tc2|) :
    temperatureMismatch d actual = [(QueueItemType.temperature, tc2)] := by
  unfold temperatureMismatch
  rw [h]
  exact if_pos hc

theorem temperatureMismatch_some_neg (d : DeviceDesiredState)
    (actual : DeviceStatus) (tc2 : ℚ) (h : d.targetTemperatureC = some tc2)
    (hc : ¬1 / 10 < |actual.control.set_temperature_c - tc2|) :
    temperatureMismatch d actual = [] := by
  unfold temperatureMismatch
  rw [h]
  exact if_neg hc

theorem stateMismatch_none (d : DeviceDesiredState) (actual : DeviceStatus)
    (h : d.targetState = none) : stateMismatch d actual = [] := by
  unfold stateMismatch
  rw [h]

theorem stateMismatch_some_pos (d : DeviceDesiredState) (actual : DeviceStatus)
    (ts2 : TCStatus) (h : d.targetState = some ts2)
    (hc : actual.control.thermal_control_status ≠ ts2) :
    stateMismatch d actual = [(QueueItemType.state, stateValue ts2)] := by
  unfold stateMismatch
  rw [h]
  exact if_pos hc

theorem stateMismatch_some_neg (d : DeviceDesiredState) (actual : DeviceStatus)
    (ts2 : TCStatus) (h : d.targetState = some ts2)
    (hc : ¬actual.control.thermal_control_status ≠ ts2) :
    stateMismatch d actual = [] := by
  unfold stateMismatch
  rw [h]
  exact if_neg hc

theorem mem_temperatureMismatch (d : DeviceDesiredState) (actual : DeviceStatus)
    (tc : ℚ) :
    (QueueItemType.temperature, tc) ∈ temperatureMismatch d actual ↔
      d.targetTemperatureC = some tc ∧
        1 / 10 < |actual.control.set_temperature_c - tc| := by
  rcases h : d.targetTemperatureC with _ | tc2
  · rw [temperatureMismatch_none d actual h]
    simp
  · by_cases hc : 1 / 10 < |actual.control.set_temperature_c - tc2|
    · rw [temperatureMismatch_some_pos d actual tc2 h hc]
      simp only [List.mem_singleton, Prod.mk.injEq, true_and, Option.some.injEq]
      constructor
      · intro he
        subst he
        exact ⟨rfl, hc⟩
      · intro he
        exact he.1.symm
    · rw [temperatureMismatch_some_neg d actual tc2 h hc]
      simp only [List.not_mem_nil, false_iff, not_and, Option.some.injEq]
      intro he
      subst he
      exact hc

theorem mem_stateMismatch (d : DeviceDesiredState) (actual : DeviceStatus)
    (sv : ℚ) :
    (QueueItemType.state, sv) ∈ stateMismatch d actual ↔
      ∃ ts, d.targetState = some ts ∧
        actual.control.thermal_control_status ≠ ts ∧ sv = stateValue ts := by
  rcases h : d.targetState with _ | ts2
  · rw [stateMismatch_none d actual h]
    simp [h]
  · by_cases hc : actual.control.thermal_control_status ≠ ts2
    · rw [stateMismatch_some_pos d actual ts2 h hc]
      simp only [List.mem_singleton, Prod.mk.injEq, true_and, h, Option.some.injEq]
      constructor
      · intro he
        exact ⟨ts2, rfl, hc, he⟩
      · rintro ⟨ts3, he1, _, he3⟩
        rw [he1]
        exact he3
    · rw [stateMismatch_some_neg d actual ts2 h hc]
      simp only [List.not_mem_nil, false_iff, not_exists, h, Option.some.injEq]
      rintro ts3 ⟨he1, hne, _⟩
      subst he1
      exact hc hne

theorem temperatureMismatch_fst (d : DeviceDesiredState) (actual : DeviceStatus) :
    ∀ x ∈ temperatureMismatch d actual, x.fst = QueueItemType.temperature := by
  unfold temperatureMismatch
  rcases d.targetTemperatureC with _ | tc2
  · simp
  · split
    · simp
    · simp

theorem stateMismatch_fst (d : DeviceDesiredState) (actual : DeviceStatus) :
    ∀ x ∈ stateMismatch d actual, x.fst = QueueItemType.state := by
  unfold stateMismatch
  rcases d.targetState with _ | ts2
  · simp
  · split
    · simp
    · simp

/-- C6: when verification runs with a registered cache and the forced
refresh returns a status, the temperature field is re-enqueued (with the
desired Celsius value) exactly when a desired temperature is set and the
actual target differs from it by more than 0.1; the state field is
re-enqueued (with the 0/1 encoding of the desired mode, which decodes
back to that mode on enqueue) exactly when a desired mode is set and the
actual mode differs; and when no cache is registered the run is skipped
with nothing enqueued. -/
theorem verify_reconciles (d : DeviceDesiredState) (actual : DeviceStatus)
    (resp : Option DeviceStatus) (tc sv : ℚ) :
    (verifyDeviceState (some d) false resp = VerifyResult.skippedNoCache ∧
      enqueuedOf (verifyDeviceState (some d) false resp) = []) ∧
    ((QueueItemType.temperature, tc) ∈
        enqueuedOf (verifyDeviceState (some d) true (some actual)) ↔
      d.targetTemperatureC = some tc ∧
        1 / 10 < |actual.control.set_temperature_c - tc|) ∧
    ((QueueItemType.state, sv) ∈
        enqueuedOf (verifyDeviceState (some d) true (some actual)) ↔
      ∃ ts, d.targetState = some ts ∧
        actual.control.thermal_control_status ≠ ts ∧ sv = stateValue ts) ∧
    (∀ ts, targetStateOfValue (stateValue ts) = ts) := by
  have henq : enqueuedOf (verifyDeviceState (some d) true (some actual)) =
      temperatureMismatch d actual ++ stateMismatch d actual := rfl
  refine ⟨⟨rfl, rfl⟩, ?_, ?_, ?_⟩
  · rw [henq, List.mem_append]
    constructor
    · intro hm
      rcases hm with hm | hm
      · exact (mem_temperatureMismatch d actual tc).mp hm
      · exact absurd (stateMismatch_fst d actual _ hm) (by simp)
    · intro hm
      exact Or.inl ((mem_temperatureMismatch d actual tc).mpr hm)
  · rw [henq, List.mem_append]
    constructor
    · intro hm
      rcases hm with hm | hm
      · exact absurd (temperatureMismatch_fst d actual _ hm) (by simp)
      · exact (mem_stateMismatch d actual sv).mp hm
    · intro hm
      exact Or.inr ((mem_stateMismatch d actual sv).mpr hm)
  · intro ts
    cases ts
    · rfl
    · simp [stateValue, targetStateOfValue]

/-- C6 witness: desired 20 °C / active, actual 22 °C / standby: both
fields are re-enqueued with the desired values, and with no registered
cache the run is skipped. -/
theorem verify_reconciles_witness :
    (QueueItemType.temperature, (20 : ℚ)) ∈
      enqueuedOf (verifyDeviceState
        (some ⟨some 20, some TCStatus.active, 0⟩) true
        (some ⟨⟨22, TCStatus.standby⟩⟩)) ∧
    (QueueItemType.state, (1 : ℚ)) ∈
      enqueuedOf (verifyDeviceState
        (some ⟨some 20, some TCStatus.active, 0⟩) true
        (some ⟨⟨22, TCStatus.standby⟩⟩)) ∧
    verifyDeviceState (some ⟨some 20, some TCStatus.active, 0⟩) false none =
      VerifyResult.skippedNoCache := by
  have h := verify_reconciles ⟨some 20, some TCStatus.active, 0⟩
    ⟨⟨22, TCStatus.standby⟩⟩ none 20 1
  refine ⟨h.2.1.mpr ⟨rfl, by norm_num⟩, ?_, h.1.1⟩
  exact h.2.2.1.mpr ⟨TCStatus.active, rfl, by decide, rfl⟩

end ApiQueue

end Sleepme
